import Mathlib

/-!
# Verification of kernelscan (kernelscan.c)

A shallow embedding of the kernelscan C source: the pushback character
stream, the lexer (`get_token` and its helpers), the function-name
recognizer (djb2a hash table), and the statement reconstructor
(`parse_kernel_message`, `parse_kernel_messages`), together with the
per-file scan driver counters.

Modelling conventions:
* characters are `Int` byte values; `EOF = -1` as returned by `fgetc`;
* the parser state (`PState`) carries the remaining file bytes, the
  pushback stack (`get_stack` list in the source; the `free_stack`
  allocation pool is not observable and is omitted), and the two flags
  `opt_flags & OPT_ESCAPE_STRIP` and `skip_white_space`;
* the global counters `lines`, `finds`, `files` and the printed output
  are only ever incremented/appended, never read back by the scanner, so
  each function returns the increments it performs (writer style); the
  caller combines them in execution order, which is observationally the
  same as mutating the C globals;
* every C loop takes a fuel argument and returns `none` when the fuel
  runs out; one unit of fuel is spent per loop iteration.
-/

/-- `fgetc` end-of-file sentinel. -/
def EOF : Int := -1

/-- Byte value of a character. -/
def chr (c : Char) : Int := Int.ofNat c.toNat

/-- Byte values of a Lean string, for writing concrete inputs. -/
def str (s : String) : List Int := s.toList.map chr

/-- Token kinds (the `token_type` enum). -/
inductive token_type where
  | UNKNOWN
  | NUMBER
  | LITERAL_STRING
  | LITERAL_CHAR
  | IDENTIFIER
  | PAREN_OPENED
  | PAREN_CLOSED
  | SQUARE_OPENED
  | SQUARE_CLOSED
  | CPP
  | WHITE_SPACE
  | LESS_THAN
  | GREATER_THAN
  | COMMA
  | ARROW
  | TERMINAL
deriving DecidableEq, Repr

/-- A token: gathered text plus classification (the `token` struct;
the buffer capacity bookkeeping `ptr`/`len` is not observable). -/
structure Token where
  text : List Int
  type : token_type
deriving DecidableEq, Repr

/-- `token_clear`. -/
def token_clear (_t : Token) : Token := ⟨[], .UNKNOWN⟩

/-- `token_new` (fresh cleared token). -/
def token_new : Token := ⟨[], .UNKNOWN⟩

/-- `token_append` (buffer growth always succeeds in the model). -/
def token_append (t : Token) (ch : Int) : Token := ⟨t.text ++ [ch], t.type⟩

/-- Set the token type field, as in `t->type = ...`. -/
def token_set_type (t : Token) (ty : token_type) : Token := ⟨t.text, ty⟩

/-- Parser state: the `parser` struct (pushback stack and remaining
input) together with the global flag `opt_flags & OPT_ESCAPE_STRIP`. -/
structure PState where
  escStrip : Bool
  skipWs : Bool
  input : List Int
  pushback : List Int
deriving DecidableEq, Repr

/-- `get_next`: pop the pushback stack if non-empty, else read the
underlying stream (`fgetc`, returning `EOF` when exhausted). -/
def get_next (p : PState) : Int × PState :=
  match p.pushback with
  | c :: rest => (c, { p with pushback := rest })
  | [] =>
    match p.input with
    | c :: rest => (c, { p with input := rest })
    | [] => (EOF, p)

/-- `unget_next`: push a character back onto the input. -/
def unget_next (p : PState) (ch : Int) : PState :=
  { p with pushback := ch :: p.pushback }

/-- ctype `isdigit`. -/
def isdigit (c : Int) : Bool := chr '0' ≤ c && c ≤ chr '9'

/-- ctype `isxdigit`. -/
def isxdigit (c : Int) : Bool :=
  isdigit c || (chr 'A' ≤ c && c ≤ chr 'F') || (chr 'a' ≤ c && c ≤ chr 'f')

/-- ctype `isalpha` (ASCII). -/
def isalpha (c : Int) : Bool :=
  (chr 'A' ≤ c && c ≤ chr 'Z') || (chr 'a' ≤ c && c ≤ chr 'z')

/-- ctype `isalnum` (ASCII). -/
def isalnum (c : Int) : Bool := isalpha c || isdigit c

/-- Result of `skip_comments`: `PARSER_OK`, `PARSER_COMMENT_FOUND`, `EOF`. -/
inductive CRes where
  | ok
  | commentFound
  | eof
deriving DecidableEq, Repr

/-- Result of `get_token` / `parse_literal`: `PARSER_OK` or `EOF`. -/
inductive LexRes where
  | ok
  | eof
deriving DecidableEq, Repr

/-- The `//` comment loop of `skip_comments`: consume through the newline. -/
def skip_comments_line : Nat → PState → Option (CRes × PState)
  | 0, _ => none
  | fuel + 1, p =>
    let (ch, p1) := get_next p
    if ch = EOF then some (.eof, p1)
    else if ch = chr '\n' then some (.commentFound, p1)
    else skip_comments_line fuel p1

/-- The `/* ... */` comment loop of `skip_comments`. -/
def skip_comments_block : Nat → PState → Option (CRes × PState)
  | 0, _ => none
  | fuel + 1, p =>
    let (ch, p1) := get_next p
    if ch = EOF then some (.eof, p1)
    else if ch = chr '*' then
      let (ch2, p2) := get_next p1
      if ch2 = EOF then some (.eof, p2)
      else if ch2 = chr '/' then some (.commentFound, p2)
      else skip_comments_block fuel (unget_next p2 ch2)
    else skip_comments_block fuel p1

/-- `skip_comments`: called after a `/` was read. -/
def skip_comments (fuel : Nat) (p : PState) : Option (CRes × PState) :=
  let (nextch, p1) := get_next p
  if nextch = EOF then some (.eof, p1)
  else if nextch = chr '/' then skip_comments_line fuel p1
  else if nextch = chr '*' then skip_comments_block fuel p1
  else some (.ok, unget_next p1 nextch)

/-- The digit-gathering loop of `parse_number`. -/
def parse_number_loop (ishex isoct : Bool) :
    Nat → Token → PState → Option (Token × PState)
  | 0, _, _ => none
  | fuel + 1, t, p =>
    let (ch, p1) := get_next p
    if ch = EOF then some (t, unget_next p1 ch)
    else if ishex then
      if isxdigit ch then parse_number_loop ishex isoct fuel (token_append t ch) p1
      else some (t, unget_next p1 ch)
    else if isoct then
      if chr '0' ≤ ch && ch ≤ chr '8' then
        parse_number_loop ishex isoct fuel (token_append t ch) p1
      else some (t, unget_next p1 ch)
    else
      if isdigit ch then parse_number_loop ishex isoct fuel (token_append t ch) p1
      else some (t, unget_next p1 ch)

/-- `parse_number`: decimal, octal (permissively `0`-`8`) or hex.
Note the source appends `ch` (still `'0'`) a second time when `EOF`
immediately follows a leading `0`. -/
def parse_number (fuel : Nat) (t : Token) (p : PState) (ch : Int) :
    Option (Token × PState) :=
  if ch = chr '0' then
    let t1 := token_append t ch
    let (nextch1, p1) := get_next p
    if nextch1 = EOF then some (token_append t1 ch, p1)
    else if chr '0' ≤ nextch1 && nextch1 ≤ chr '8' then
      parse_number_loop false true fuel (token_append t1 nextch1) p1
    else if nextch1 = chr 'x' || nextch1 = chr 'X' then
      let (nextch2, p2) := get_next p1
      if nextch2 = EOF then some (t1, unget_next p2 nextch1)
      else if isxdigit nextch2 then
        parse_number_loop true false fuel
          (token_append (token_append t1 nextch1) nextch2) p2
      else some (t1, unget_next (unget_next p2 nextch2) nextch1)
    else some (t1, unget_next p1 nextch1)
  else
    parse_number_loop false false fuel (token_append t ch) p

/-- The gathering loop of `parse_identifier`. -/
def parse_identifier_loop : Nat → Token → PState → Option (Token × PState)
  | 0, _, _ => none
  | fuel + 1, t, p =>
    let (ch, p1) := get_next p
    if ch = EOF then some (t, p1)
    else if isalnum ch || ch = chr '_' then
      parse_identifier_loop fuel (token_append t ch) p1
    else some (t, unget_next p1 ch)

/-- `parse_identifier`. -/
def parse_identifier (fuel : Nat) (t : Token) (p : PState) (ch : Int) :
    Option (Token × PState) :=
  parse_identifier_loop fuel (token_set_type (token_append t ch) .IDENTIFIER) p

/-- The consuming loop of `parse_literal`; `lit` is the delimiter.
The escape policy is chosen by the `OPT_ESCAPE_STRIP` flag. -/
def parse_literal_loop (lit : Int) : Nat → Token → PState → Option (LexRes × Token × PState)
  | 0, _, _ => none
  | fuel + 1, t, p =>
    let (ch, p1) := get_next p
    if ch = EOF then some (.ok, t, p1)
    else if ch = chr '\\' then
      if p1.escStrip then
        let (ch2, p2) := get_next p1
        if ch2 = EOF then some (.eof, t, p2)
        else if ch2 = chr '?' then
          parse_literal_loop lit fuel (token_append t ch2) p2
        else if ch2 = chr 'a' || ch2 = chr 'b' || ch2 = chr 'f' || ch2 = chr 'n' ||
                ch2 = chr 'r' || ch2 = chr 't' || ch2 = chr 'v' then
          let (ch3, p3) := get_next p2
          let p4 := unget_next p3 ch3
          if ch3 ≠ lit then
            parse_literal_loop lit fuel (token_append t (chr ' ')) p4
          else
            parse_literal_loop lit fuel t p4
        else
          parse_literal_loop lit fuel (token_append (token_append t (chr '\\')) ch2) p2
      else
        let t1 := token_append t ch
        let (ch2, p2) := get_next p1
        if ch2 = EOF then some (.eof, t1, p2)
        else parse_literal_loop lit fuel (token_append t1 ch2) p2
    else if ch = lit then some (.ok, token_append t ch, p1)
    else parse_literal_loop lit fuel (token_append t ch) p1

/-- `parse_literal`: append the opening delimiter, then consume. -/
def parse_literal (fuel : Nat) (t : Token) (p : PState) (lit : Int)
    (ty : token_type) : Option (LexRes × Token × PState) :=
  parse_literal_loop lit fuel (token_append (token_set_type t ty) lit) p

/-- `parse_op`: `+ = | &`, possibly doubled. -/
def parse_op (t : Token) (p : PState) (op : Int) : Token × PState :=
  let t1 := token_append t op
  let (ch, p1) := get_next p
  if ch = EOF then (t1, p1)
  else if ch = op then (token_append t1 op, p1)
  else (t1, unget_next p1 ch)

/-- `parse_minus`: `-`, `--` or `->`. -/
def parse_minus (t : Token) (p : PState) (op : Int) : Token × PState :=
  let t1 := token_append t op
  let (ch, p1) := get_next p
  if ch = EOF then (t1, p1)
  else if ch = op then (token_append t1 ch, p1)
  else if ch = chr '>' then (token_set_type (token_append t1 ch) .ARROW, p1)
  else (t1, unget_next p1 ch)

/-- `get_token`: gather one token. The returned `Nat` is the number of
`lines++` increments performed (newlines hit by the dispatch switch);
this is the only global the lexer mutates. -/
def get_token : Nat → Token → PState → Option (LexRes × Token × PState × Nat)
  | 0, _, _ => none
  | fuel + 1, t, p =>
    let (ch, p1) := get_next p
    if ch = EOF then some (.eof, t, p1, 0)
    else if ch = chr '/' then
      match skip_comments fuel p1 with
      | none => none
      | some (.eof, p2) => some (.eof, t, p2, 0)
      | some (.commentFound, p2) => get_token fuel t p2
      | some (.ok, p2) => some (.ok, token_append t ch, p2, 0)
    else if ch = chr '#' then
      some (.ok, token_set_type (token_append t ch) .CPP, p1, 0)
    else if ch = chr '\n' || ch = chr ' ' || ch = chr '\t' || ch = chr '\r' ||
            ch = chr '\\' then
      let dl : Nat := if ch = chr '\n' then 1 else 0
      if p1.escStrip then
        if p1.skipWs then
          (get_token fuel t p1).map (fun r => (r.1, r.2.1, r.2.2.1, dl + r.2.2.2))
        else some (.ok, token_set_type (token_append t ch) .WHITE_SPACE, p1, dl)
      else
        if p1.skipWs then
          (get_token fuel t p1).map (fun r => (r.1, r.2.1, r.2.2.1, dl + r.2.2.2))
        else
          let t1 := token_append t ch
          let (ch2, p2) := get_next p1
          if ch2 = EOF then some (.eof, t1, p2, dl)
          else some (.ok, token_append t1 ch2, p2, dl)
    else if ch = chr '(' then
      some (.ok, token_set_type (token_append t ch) .PAREN_OPENED, p1, 0)
    else if ch = chr ')' then
      some (.ok, token_set_type (token_append t ch) .PAREN_CLOSED, p1, 0)
    else if ch = chr '[' then
      some (.ok, token_set_type (token_append t ch) .SQUARE_OPENED, p1, 0)
    else if ch = chr ']' then
      some (.ok, token_set_type (token_append t ch) .SQUARE_CLOSED, p1, 0)
    else if ch = chr '<' then
      some (.ok, token_set_type (token_append t ch) .LESS_THAN, p1, 0)
    else if ch = chr '>' then
      some (.ok, token_set_type (token_append t ch) .GREATER_THAN, p1, 0)
    else if ch = chr ',' then
      some (.ok, token_set_type (token_append t ch) .COMMA, p1, 0)
    else if ch = chr ';' then
      some (.ok, token_set_type (token_append t ch) .TERMINAL, p1, 0)
    else if ch = chr '{' || ch = chr '}' || ch = chr ':' || ch = chr '~' ||
            ch = chr '?' || ch = chr '*' || ch = chr '%' || ch = chr '!' ||
            ch = chr '.' then
      some (.ok, token_append t ch, p1, 0)
    else if chr '0' ≤ ch && ch ≤ chr '9' then
      (parse_number fuel t p1 ch).map (fun r => (.ok, r.1, r.2, 0))
    else if (chr 'a' ≤ ch && ch ≤ chr 'z') || (chr 'A' ≤ ch && ch ≤ chr 'Z') then
      (parse_identifier fuel t p1 ch).map (fun r => (.ok, r.1, r.2, 0))
    else if ch = chr '"' then
      (parse_literal fuel t p1 ch .LITERAL_STRING).map
        (fun r => (r.1, r.2.1, r.2.2, 0))
    else if ch = chr '\'' then
      (parse_literal fuel t p1 ch .LITERAL_CHAR).map
        (fun r => (r.1, r.2.1, r.2.2, 0))
    else if ch = chr '+' || ch = chr '=' || ch = chr '|' || ch = chr '&' then
      let r := parse_op t p1 ch
      some (.ok, r.1, r.2, 0)
    else if ch = chr '-' then
      let r := parse_minus t p1 ch
      some (.ok, r.1, r.2, 0)
    else
      get_token fuel t p1

/-- `literal_strip_quotes`: drop the first and last byte of the text. -/
def literal_strip_quotes (t : Token) : Token :=
  ⟨(t.text.drop 1).dropLast, t.type⟩

/-- The fixed function-name list `funcs` (NULL terminator omitted). -/
def funcs : List (List Int) :=
  [str "printk", str "printf", str "early_printk", str "vprintk_emit",
   str "vprintk", str "printk_emit", str "printk_once", str "printk_deferred",
   str "printk_deferred_once", str "pr_emerg", str "pr_alert", str "pr_crit",
   str "pr_err", str "pr_warning", str "pr_warn", str "pr_notice",
   str "pr_info", str "pr_cont", str "pr_devel", str "pr_debug",
   str "pr_emerg_once", str "pr_alert_once", str "pr_crit_once",
   str "pr_err_once", str "pr_warning_once", str "pr_warn_once",
   str "pr_notice_once", str "pr_info_once", str "pr_cont_once",
   str "pr_devel_once", str "pr_debug_once", str "dynamic_pr_debug",
   str "dev_vprintk_emit", str "dev_printk_emit", str "dev_printk",
   str "dev_emerg", str "dev_alert", str "dev_crit", str "dev_err",
   str "dev_warn", str "dev_dbg", str "dev_notice", str "dev_level_once",
   str "dev_emerg_once", str "dev_alert_once", str "dev_crit_once",
   str "dev_err_once", str "dev_warn_once", str "dev_notice_once",
   str "dev_info_once", str "dev_dbg_once", str "dev_level_ratelimited",
   str "dev_emerg_ratelimited", str "dev_alert_ratelimited",
   str "dev_crit_ratelimited", str "dev_err_ratelimited",
   str "dev_warn_ratelimited", str "dev_notice_ratelimited",
   str "dev_info_ratelimited", str "dbg", str "ACPI_ERROR", str "ACPI_INFO",
   str "ACPI_WARNING", str "ACPI_EXCEPTION", str "ACPI_BIOS_WARNING",
   str "ACPI_BIOS_ERROR", str "ACPI_ERROR_METHOD", str "ACPI_DEBUG_PRINT",
   str "ACPI_DEBUG_PRINT_RAW", str "DEBUG"]

/-- `djb2a`: seed 5381, `hash = (hash * 33) ^ c` over 32-bit unsigned
arithmetic; the C loop stops at the first NUL byte. -/
def djb2a (s : List Int) : Nat :=
  (s.takeWhile (fun c => c ≠ 0)).foldl
    (fun h c => (((h <<< 5) + h) % 4294967296 ^^^ c.toNat) % 4294967296) 5381

/-- One width is collision free when the 70 slots are pairwise distinct;
this is what the insertion loop in `main` detects. -/
def hasDup : List Nat → Bool
  | [] => false
  | x :: xs => xs.contains x || hasDup xs

/-- The width search of `main`: first width from 458 below `TABLE_SIZE`
(5000) at which `djb2a` is injective modulo the width over `funcs`. -/
def hash_size_search : Nat → Nat → Option Nat
  | 0, _ => none
  | fuel + 1, w =>
    if 5000 ≤ w then none
    else if hasDup (funcs.map (fun f => djb2a f % w)) then
      hash_size_search fuel (w + 1)
    else some w

/-- The chosen table width `hash_size` (0 would mean the fatal-exit path). -/
def hash_size : Nat := (hash_size_search 4542 458).getD 0

/-- The populated `hash_funcs` table: at the chosen width the occupant of
a slot is the unique list entry hashing there. -/
def hash_funcs (h : Nat) : Option (List Int) :=
  funcs.find? (fun f => djb2a f % hash_size == h)

/-- C `strcmp(a, b) == 0`: equality of the prefixes before the first NUL. -/
def cstrEq (a b : List Int) : Bool :=
  a.takeWhile (fun c => c ≠ 0) == b.takeWhile (fun c => c ≠ 0)

/-- The identifier gate of `parse_kernel_messages`:
`hf = hash_funcs[djb2a(token) % hash_size]; hf && !strcmp(token, hf)`. -/
def recognized (s : List Int) : Bool :=
  match hash_funcs (djb2a s % hash_size) with
  | some hf => cstrEq s hf
  | none => false

/-- Output and counter increments performed by a piece of the scan:
`lines++` count, `finds++` count, and the lines printed to stdout
(a printed line is its byte list; the blank separator line is `[]`). -/
structure Out where
  lines : Nat
  finds : Nat
  emitted : List (List Int)
deriving DecidableEq, Repr

/-- No increments. -/
def oZero : Out := ⟨0, 0, []⟩

/-- Combine increments in execution order. -/
def oapp (a b : Out) : Out := ⟨a.lines + b.lines, a.finds + b.finds, a.emitted ++ b.emitted⟩

/-- The `Source: <path>` header line printed once per emitting file. -/
def source_header (path : List Int) : List Int := str "Source: " ++ path

/-- The resynchronisation loop of `parse_kernel_message` after a false
match: read tokens (without clearing the shared buffer) until `;`. -/
def pkm_resync : Nat → Token → PState → Option (LexRes × Token × PState × Nat)
  | 0, _, _ => none
  | fuel + 1, t, p =>
    match get_token fuel t p with
    | none => none
    | some (.eof, t1, p1, dl) => some (.eof, t1, p1, dl)
    | some (.ok, t1, p1, dl) =>
      if t1.type = .TERMINAL then some (.ok, t1, p1, dl)
      else
        match pkm_resync fuel t1 p1 with
        | none => none
        | some (r, t2, p2, dl2) => some (r, t2, p2, dl + dl2)

/-- The argument-accumulation loop of `parse_kernel_message`.
`se` is `*source_emit`, `gs` is `got_string`, `emit` and `found` the
local flags, `line` the line buffer, `s` the `str` message buffer
(`none` = NULL). -/
def pkm_loop : Nat → List Int → Bool → Bool → Bool → Bool →
    List Int → Option (List Int) → Token → PState →
    Option (LexRes × Bool × Token × PState × Out)
  | 0, _, _, _, _, _, _, _, _, _ => none
  | fuel + 1, path, se, gs, emit, found, line, s, t, p =>
    match get_token fuel t p with
    | none => none
    | some (.eof, t1, p1, dl) => some (.eof, se, t1, p1, ⟨dl, 0, []⟩)
    | some (.ok, t1, p1, dl) =>
      if t1.type = .TERMINAL then
        if emit then
          let hdr : List (List Int) := if se then [] else [source_header path]
          some (.ok, true, t1, p1, ⟨dl, 1, hdr ++ [line]⟩)
        else some (.ok, se, t1, p1, ⟨dl, 0, []⟩)
      else if t1.type = .LITERAL_STRING then
        let t2 := literal_strip_quotes t1
        let s1 : Option (List Int) := some ((s.getD []) ++ t2.text)
        let line1 := (if gs then line else line ++ [chr '"']) ++ t2.text ++
          (if t2.type = .COMMA then [chr ' '] else [])
        match pkm_loop fuel path se true true found line1 s1 (token_clear t2) p1 with
        | none => none
        | some (r, se2, t3, p2, o) => some (r, se2, t3, p2, oapp ⟨dl, 0, []⟩ o)
      else
        let line1 := (if gs then line ++ [chr '"'] else line) ++ t1.text ++
          (if t1.type = .COMMA then [chr ' '] else [])
        let found1 := found || s.isSome
        match pkm_loop fuel path se false emit found1 line1 none (token_clear t1) p1 with
        | none => none
        | some (r, se2, t3, p2, o) => some (r, se2, t3, p2, oapp ⟨dl, 0, []⟩ o)

/-- `parse_kernel_message`: entered with the recognized identifier in the
shared token buffer; expects `(` next, else resynchronises to `;`. -/
def parse_kernel_message (fuel : Nat) (path : List Int) (se : Bool)
    (t : Token) (p : PState) : Option (LexRes × Bool × Token × PState × Out) :=
  let line := t.text
  let t1 := token_clear t
  match get_token fuel t1 p with
  | none => none
  | some (.eof, t2, p1, dl) => some (.eof, se, t2, p1, ⟨dl, 0, []⟩)
  | some (.ok, t2, p1, dl) =>
    if t2.type ≠ token_type.PAREN_OPENED then
      match pkm_resync fuel t2 p1 with
      | none => none
      | some (r, t3, p2, dl2) => some (r, se, t3, p2, ⟨dl + dl2, 0, []⟩)
    else
      match pkm_loop fuel path se false false false (line ++ t2.text) none
          (token_clear t2) p1 with
      | none => none
      | some (r, se2, t3, p2, o) => some (r, se2, t3, p2, oapp ⟨dl, 0, []⟩ o)

/-- The token loop of `parse_kernel_messages`: note that after
`parse_kernel_message` returns, the loop continues with the token buffer
NOT cleared (the `else` branch clears, the match branch does not). -/
def pkms_loop : Nat → List Int → Bool → Token → PState → Option (Bool × Out)
  | 0, _, _, _, _ => none
  | fuel + 1, path, se, t, p =>
    match get_token fuel t p with
    | none => none
    | some (.eof, _, _, dl) => some (se, ⟨dl, 0, []⟩)
    | some (.ok, t1, p1, dl) =>
      if recognized t1.text then
        match parse_kernel_message fuel path se t1 p1 with
        | none => none
        | some (_, se1, t2, p2, o1) =>
          match pkms_loop fuel path se1 t2 p2 with
          | none => none
          | some (se2, o2) => some (se2, oapp ⟨dl, 0, []⟩ (oapp o1 o2))
      else
        match pkms_loop fuel path se (token_clear t1) p1 with
        | none => none
        | some (se2, o2) => some (se2, oapp ⟨dl, 0, []⟩ o2)

/-- `parse_kernel_messages`: scan one open file; a trailing blank line is
printed when the file emitted anything. -/
def parse_kernel_messages (fuel : Nat) (esc : Bool) (path content : List Int) :
    Option Out :=
  match pkms_loop fuel path false token_new ⟨esc, true, content, []⟩ with
  | none => none
  | some (se, o) => if se then some (oapp o ⟨0, 0, [[]]⟩) else some o

/-- The regular-file branch of `parse_file`: scan the opened file and
count it (`files++`); the returned flag distinguishes the file counter
from the `Out` increments. -/
def parse_file (fuel : Nat) (esc : Bool) (path content : List Int) :
    Option (Nat × Out) :=
  match parse_kernel_messages fuel esc path content with
  | none => none
  | some o => some (1, o)

/-- Scanning a list of regular files in order, accumulating the global
counters exactly as the repeated `parse_file` calls in `main` do. -/
def scan_files (fuel : Nat) (esc : Bool) :
    List (List Int × List Int) → Option (Nat × Out)
  | [] => some (0, oZero)
  | (path, content) :: rest =>
    match parse_file fuel esc path content with
    | none => none
    | some (n1, o1) =>
      match scan_files fuel esc rest with
      | none => none
      | some (n2, o2) => some (n1 + n2, oapp o1 o2)

/-- The final summary triple printed by `main`:
files scanned, lines scanned, statements found. -/
def summary (r : Nat × Out) : Nat × Nat × Nat :=
  (r.1, r.2.lines, r.2.finds)

/-- Push back a list of characters one after the other (stack order). -/
def unget_list (p : PState) (cs : List Int) : PState := cs.foldl unget_next p

/-- Read `n` characters in sequence. -/
def get_list : Nat → PState → List Int × PState
  | 0, p => ([], p)
  | n + 1, p =>
    let (c, p1) := get_next p
    let (cs, p2) := get_list n p1
    (c :: cs, p2)

/-- Per-file scan results in file order (the specification-level view of
the counter accumulation: one `parse_kernel_messages` result per file). -/
def per_file_outs (fuel : Nat) (esc : Bool) :
    List (List Int × List Int) → Option (List Out)
  | [] => some []
  | (path, content) :: rest =>
    match parse_kernel_messages fuel esc path content with
    | none => none
    | some o =>
      match per_file_outs fuel esc rest with
      | none => none
      | some os => some (o :: os)

theorem get_next_unget_next (p : PState) (c : Int) :
    get_next (unget_next p c) = (c, p) := rfl

theorem get_list_unget_list (cs : List Int) :
    ∀ (p : PState) (n : Nat),
      get_list (cs.length + n) (unget_list p cs) =
        (cs.reverse ++ (get_list n p).1, (get_list n p).2) := by
  induction cs with
  | nil => intro p n; simp [unget_list]
  | cons c cs ih =>
    intro p n
    have h1 : unget_list p (c :: cs) = unget_list (unget_next p c) cs := rfl
    have h2 : (c :: cs).length + n = cs.length + (n + 1) := by
      rw [List.length_cons]; omega
    have h3 : get_list (n + 1) (unget_next p c) =
        (c :: (get_list n p).1, (get_list n p).2) := by
      simp [get_list, get_next_unget_next]
    rw [h1, h2, ih (unget_next p c) (n + 1), h3]
    simp

/-- C4: pushing a character back and reading returns exactly that
character and restores the parser state (so the remaining stream is
untouched, also after end-of-input was observed, since `get_next` at
exhaustion leaves the state unchanged); pushing back a list of
characters returns them in LIFO order, again restoring the state. -/
theorem c4_pushback_lifo (p : PState) (c : Int) (cs : List Int) :
    get_next (unget_next p c) = (c, p) ∧
    get_list cs.length (unget_list p cs) = (cs.reverse, p) := by
  refine ⟨get_next_unget_next p c, ?_⟩
  have h := get_list_unget_list cs p 0
  simpa [get_list] using h

/-- C5: lexing the single character `0` followed by end-of-input returns
a token normally (no EOF propagation), but its text is `00`, not `0`:
`parse_number` appends the leading `0` a second time in the EOF branch. -/
theorem c5_zero_eof_token :
    get_token 10 token_new ⟨false, true, str "0", []⟩ =
      some (.ok, ⟨str "00", .UNKNOWN⟩, ⟨false, true, [], []⟩, 0) ∧
    str "00" ≠ str "0" := by decide

/-- C6 counterexample: end-of-input immediately after a backslash inside
a literal returns `EOF` (aborting the file scan), not a normal token —
in strip mode and in preserve mode alike. -/
theorem c6_backslash_eof_counterexample :
    parse_literal 10 token_new ⟨true, true, [chr '\\'], []⟩ (chr '"')
        .LITERAL_STRING =
      some (.eof, ⟨[chr '"'], .LITERAL_STRING⟩, ⟨true, true, [], []⟩) ∧
    parse_literal 10 token_new ⟨false, true, [chr '\\'], []⟩ (chr '"')
        .LITERAL_STRING =
      some (.eof, ⟨[chr '"', chr '\\'], .LITERAL_STRING⟩, ⟨false, true, [], []⟩) ∧
    LexRes.eof ≠ LexRes.ok := by decide

/-- C6 amended: in both literal-parsing modes, end-of-input immediately
after a backslash propagates end-of-input (result `EOF`), whereas
end-of-input with no pending backslash before the closing delimiter ends
the token without error (result `PARSER_OK`). -/
theorem c6_backslash_eof_amended (fuel : Nat) (lit : Int) (t : Token)
    (p p1 p2 : PState) :
    (get_next p = (chr '\\', p1) → get_next p1 = (EOF, p2) →
      parse_literal_loop lit (fuel + 1) t p =
        some (.eof, if p1.escStrip then t else token_append t (chr '\\'), p2)) ∧
    (get_next p = (EOF, p1) →
      parse_literal_loop lit (fuel + 1) t p = some (.ok, t, p1)) := by
  have hbe : (chr '\\' : Int) ≠ EOF := by decide
  constructor
  · intro h1 h2
    cases he : p1.escStrip <;>
      simp [parse_literal_loop, h1, h2, he, hbe]
  · intro h1
    simp [parse_literal_loop, h1]

theorem c6_backslash_eof_amended_witness :
    parse_literal_loop (chr '"') (2 + 1) token_new ⟨true, true, [chr '\\'], []⟩ =
      some (.eof, token_new, ⟨true, true, [], []⟩) ∧
    parse_literal_loop (chr '"') (2 + 1) token_new ⟨true, true, [], []⟩ =
      some (.ok, token_new, ⟨true, true, [], []⟩) := by
  constructor
  · have h := (c6_backslash_eof_amended 2 (chr '"') token_new
      ⟨true, true, [chr '\\'], []⟩ ⟨true, true, [], []⟩ ⟨true, true, [], []⟩).1
      rfl rfl
    simpa using h
  · exact (c6_backslash_eof_amended 2 (chr '"') token_new
      ⟨true, true, [], []⟩ ⟨true, true, [], []⟩ ⟨true, true, [], []⟩).2 rfl

/-- C7: in escape-strip mode, inside a literal, a backslash followed by
one of `a b f n r t v` appends a single space unless the character after
the escape letter equals the literal's delimiter (then nothing is
appended); in both branches that character is pushed back and the loop
continues from it. An escaped `?` is appended as `?`, and any other
escaped character is appended verbatim as backslash followed by the
character. -/
theorem c7_escape_strip (fuel : Nat) (lit c2 : Int) (t : Token)
    (p p1 p2 : PState)
    (hesc : p1.escStrip = true)
    (h1 : get_next p = (chr '\\', p1))
    (h2 : get_next p1 = (c2, p2))
    (hne : c2 ≠ EOF) :
    ((c2 = chr 'a' ∨ c2 = chr 'b' ∨ c2 = chr 'f' ∨ c2 = chr 'n' ∨
      c2 = chr 'r' ∨ c2 = chr 't' ∨ c2 = chr 'v') →
      ∀ c3 p3, get_next p2 = (c3, p3) →
        parse_literal_loop lit (fuel + 1) t p =
          parse_literal_loop lit fuel
            (if c3 = lit then t else token_append t (chr ' '))
            (unget_next p3 c3)) ∧
    (c2 = chr '?' →
      parse_literal_loop lit (fuel + 1) t p =
        parse_literal_loop lit fuel (token_append t (chr '?')) p2) ∧
    (c2 ≠ chr '?' →
      ¬(c2 = chr 'a' ∨ c2 = chr 'b' ∨ c2 = chr 'f' ∨ c2 = chr 'n' ∨
        c2 = chr 'r' ∨ c2 = chr 't' ∨ c2 = chr 'v') →
      parse_literal_loop lit (fuel + 1) t p =
        parse_literal_loop lit fuel (token_append (token_append t (chr '\\')) c2) p2) := by
  have hbe : (chr '\\' : Int) ≠ EOF := by decide
  refine ⟨?_, ?_, ?_⟩
  · intro he c3 p3 h3
    rcases he with rfl | rfl | rfl | rfl | rfl | rfl | rfl <;>
      by_cases hl : c3 = lit <;>
        (simp [parse_literal_loop, h1, h2, h3, hesc, hbe, hl];
         rw [if_neg (by decide), if_neg (by decide)])
  · intro he
    subst he
    simp [parse_literal_loop, h1, h2, hesc, hbe]
    intro hq
    exact absurd hq (by decide)
  · intro hq hl
    push_neg at hl
    obtain ⟨ha, hb, hf, hn, hr, ht, hv⟩ := hl
    simp [parse_literal_loop, h1, h2, hesc, hbe, hne, hq, ha, hb, hf, hn, hr, ht, hv]

theorem c7_escape_strip_witness :
    (chr 'n' : Int) ≠ EOF ∧
    parse_literal_loop (chr '"') (5 + 1) token_new
        ⟨true, true, [chr '\\', chr 'n', chr 'x'], []⟩ =
      parse_literal_loop (chr '"') 5 ⟨[chr ' '], .UNKNOWN⟩
        ⟨true, true, [], [chr 'x']⟩ := by
  constructor
  · decide
  · have h := ((c7_escape_strip 5 (chr '"') (chr 'n') token_new
      ⟨true, true, [chr '\\', chr 'n', chr 'x'], []⟩
      ⟨true, true, [chr 'n', chr 'x'], []⟩
      ⟨true, true, [chr 'x'], []⟩ rfl rfl rfl (by decide)).1
      (by decide) (chr 'x') ⟨true, true, [], []⟩ rfl)
    simpa using h

theorem takeWhile_ne_zero_eq_self {s : List Int} (h : (0 : Int) ∉ s) :
    s.takeWhile (fun c => c ≠ 0) = s := by
  induction s with
  | nil => rfl
  | cons a l ih =>
    have ha : a ≠ 0 := by
      intro e
      exact h (e ▸ List.mem_cons_self a l)
    have hl : (0 : Int) ∉ l := fun m => h (List.mem_cons_of_mem a m)
    simp [List.takeWhile_cons, ha, ih hl]
    exact fun x hx e => hl (e ▸ hx)

theorem cstrEq_eq_iff {a b : List Int} (ha : (0 : Int) ∉ a) (hb : (0 : Int) ∉ b) :
    cstrEq a b = true ↔ a = b := by
  unfold cstrEq
  rw [takeWhile_ne_zero_eq_self ha, takeWhile_ne_zero_eq_self hb]
  exact beq_iff_eq

theorem funcs_no_nul : ∀ f ∈ funcs, (0 : Int) ∉ f := by decide

theorem funcs_all_recognized : funcs.all (fun f => recognized f) = true := by decide

/-- C3: the startup width search succeeds (yielding `hash_size`), and
recognition is exact: an identifier-like string (no NUL byte) passes the
`djb2a`-slot lookup plus exact string comparison iff it is one of the
fixed function names — every listed name matches, and no other string
ever does. -/
theorem c3_hash_exact (s : List Int) (h0 : (0 : Int) ∉ s) :
    hash_size_search 4542 458 = some hash_size ∧
    (recognized s = true ↔ s ∈ funcs) := by
  refine ⟨by decide, ?_, ?_⟩
  · intro hr
    unfold recognized at hr
    cases hfind : hash_funcs (djb2a s % hash_size) with
    | none => rw [hfind] at hr; exact absurd hr (by simp)
    | some hf =>
      rw [hfind] at hr
      have hmem : hf ∈ funcs := by
        unfold hash_funcs at hfind
        exact List.mem_of_find?_eq_some hfind
      have : s = hf := (cstrEq_eq_iff h0 (funcs_no_nul hf hmem)).mp hr
      exact this ▸ hmem
  · intro hm
    exact List.all_eq_true.mp funcs_all_recognized s hm

theorem c3_hash_exact_witness :
    (0 : Int) ∉ str "printk" ∧
    (hash_size_search 4542 458 = some hash_size ∧
     (recognized (str "printk") = true ↔ str "printk" ∈ funcs)) :=
  ⟨by decide, c3_hash_exact (str "printk") (by decide)⟩

theorem pkm_resync_terminal (fuel : Nat) :
    ∀ (t : Token) (p : PState) (t2 : Token) (p2 : PState) (dl : Nat),
      pkm_resync fuel t p = some (.ok, t2, p2, dl) →
      t2.type = token_type.TERMINAL := by
  induction fuel with
  | zero => intro t p t2 p2 dl h; simp [pkm_resync] at h
  | succ fuel ih =>
    intro t p t2 p2 dl h
    rw [pkm_resync] at h
    cases hg : get_token fuel t p with
    | none => rw [hg] at h; exact absurd h (by simp)
    | some q =>
      obtain ⟨res, t1, p1, dl1⟩ := q
      rw [hg] at h
      cases res with
      | eof => simp at h
      | ok =>
        by_cases ht : t1.type = token_type.TERMINAL
        · simp only [ht, ite_true] at h
          obtain ⟨rfl, rfl, rfl⟩ :
              t1 = t2 ∧ p1 = p2 ∧ dl1 = dl := by simpa using h
          exact ht
        · simp only [ht, ite_false] at h
          cases hres : pkm_resync fuel t1 p1 with
          | none => rw [hres] at h; exact absurd h (by simp)
          | some q2 =>
            obtain ⟨r', t2', p2', dl2⟩ := q2
            rw [hres] at h
            simp only [Option.some.injEq, Prod.mk.injEq] at h
            obtain ⟨rfl, rfl, rfl, rfl⟩ := h
            exact ih t1 p1 _ _ dl2 hres

/-- C8: when the token after a recognized identifier is not `(`, the
reconstructor emits nothing (`finds` and output increments are zero and
`source_emit` is untouched), consumes tokens until a `;` token and then
returns; in particular the file `printk foo;` yields zero findings and
no output. -/
theorem c8_false_match_resync (fuel : Nat) (path : List Int) (se : Bool)
    (t t1 : Token) (p p1 : PState) (dl : Nat)
    (hg : get_token fuel (token_clear t) p = some (.ok, t1, p1, dl))
    (hnp : t1.type ≠ token_type.PAREN_OPENED)
    (r : LexRes) (se2 : Bool) (t2 : Token) (p2 : PState) (o : Out)
    (hr : parse_kernel_message fuel path se t p = some (r, se2, t2, p2, o)) :
    se2 = se ∧ o.finds = 0 ∧ o.emitted = [] ∧
    (r = .ok → t2.type = token_type.TERMINAL) ∧
    parse_kernel_messages 100 false (str "t.c") (str "printk foo;") =
      some ⟨0, 0, []⟩ := by
  simp only [parse_kernel_message, hg, hnp, ne_eq, not_false_eq_true,
    if_true, ite_true] at hr
  cases hres : pkm_resync fuel t1 p1 with
  | none => rw [hres] at hr; exact absurd hr (by simp)
  | some q =>
    obtain ⟨r', t3, p3, dl2⟩ := q
    rw [hres] at hr
    obtain ⟨rfl, rfl, rfl, rfl, rfl⟩ :
        r' = r ∧ se = se2 ∧ t3 = t2 ∧ p3 = p2 ∧ (⟨dl + dl2, 0, []⟩ : Out) = o := by
      simpa using hr
    refine ⟨rfl, rfl, rfl, ?_, by decide⟩
    intro hok
    subst hok
    exact pkm_resync_terminal fuel t1 p1 _ _ dl2 hres

theorem c8_false_match_resync_witness :
    false = false ∧ (⟨0, 0, []⟩ : Out).finds = 0 ∧
    (⟨0, 0, []⟩ : Out).emitted = [] ∧
    (LexRes.ok = LexRes.ok →
      (⟨str "foo;", .TERMINAL⟩ : Token).type = token_type.TERMINAL) ∧
    parse_kernel_messages 100 false (str "t.c") (str "printk foo;") =
      some ⟨0, 0, []⟩ :=
  c8_false_match_resync 100 (str "t.c") false ⟨str "printk", .IDENTIFIER⟩
    ⟨str "foo", .IDENTIFIER⟩ ⟨false, true, str " foo;", []⟩
    ⟨false, true, [], [chr ';']⟩ 0 (by decide) (by decide)
    .ok false ⟨str "foo;", .TERMINAL⟩ ⟨false, true, [], []⟩ ⟨0, 0, []⟩
    (by decide)

/-- C1 counterexample: for input `printk("foo" "bar");` the emitted
finding line is `printk("foobar")` — the terminating semicolon is not
part of any emitted line, contrary to the claim's `printk("foobar");`. -/
theorem c1_semicolon_counterexample :
    parse_kernel_messages 100 false (str "t.c") (str "printk(\"foo\" \"bar\");") =
      some ⟨0, 1, [str "Source: t.c", str "printk(\"foobar\")", []]⟩ ∧
    str "printk(\"foobar\");" ∉
      [str "Source: t.c", str "printk(\"foobar\")", []] := by decide

/-- C1 amended: for input `printk("foo" "bar");` (escape-strip off) the
call is recognized and the emitted line is `printk("foobar")` — the
adjacent literals folded into one quoted run, without the terminating
semicolon (the `;` token triggers emission before its text is appended
to the line buffer); the find counter increments once. -/
theorem c1_fold_amended :
    parse_kernel_messages 100 false (str "t.c") (str "printk(\"foo\" \"bar\");") =
      some ⟨0, 1, [str "Source: t.c", str "printk(\"foobar\")", []]⟩ := by decide

/-- C9: after `parse_kernel_message` returns at the terminating `;`, the
shared token buffer still holds `;` and is not cleared, so the driver's
next `get_token` appends to it: the following identifier is read as
`;printk`, which is not recognized; consequently in
`printk("a"); printk("b");` only the first call is emitted. -/
theorem c9_terminal_residue :
    parse_kernel_message 100 (str "t.c") false ⟨str "printk", .IDENTIFIER⟩
        ⟨false, true, str "(\"a\"); printk(\"b\");", []⟩ =
      some (.ok, true, ⟨str ";", .TERMINAL⟩,
        ⟨false, true, str " printk(\"b\");", []⟩,
        ⟨0, 1, [str "Source: t.c", str "printk(\"a\")"]⟩) ∧
    get_token 100 ⟨str ";", .TERMINAL⟩ ⟨false, true, str " printk(\"b\");", []⟩ =
      some (.ok, ⟨str ";printk", .IDENTIFIER⟩,
        ⟨false, true, str "\"b\");", [chr '(']⟩, 0) ∧
    recognized (str ";printk") = false ∧
    parse_kernel_messages 200 false (str "t.c")
        (str "printk(\"a\"); printk(\"b\");") =
      some ⟨0, 1, [str "Source: t.c", str "printk(\"a\")", []]⟩ := by decide

/-- C10: a byte with no dispatch case (here `_`) is silently discarded
at token start, so `_printk("x");` lexes the identifier `printk`, which
is recognized and the call is emitted. -/
theorem c10_underscore_skip :
    get_token 100 token_new ⟨false, true, str "_printk(\"x\");", []⟩ =
      some (.ok, ⟨str "printk", .IDENTIFIER⟩,
        ⟨false, true, str "\"x\");", [chr '(']⟩, 0) ∧
    recognized (str "printk") = true ∧
    parse_kernel_messages 200 false (str "t.c") (str "_printk(\"x\");") =
      some ⟨0, 1, [str "Source: t.c", str "printk(\"x\")", []]⟩ := by decide

/-- C2 counterexample: scanning the single file `/*\n*/\n` reports
1 file, 0 findings and 1 line, although the file contains 2 newline
characters: the newline consumed inside the block comment by
`skip_comments` never reaches the `lines++` case of `get_token`. -/
theorem c2_comment_newlines_counterexample :
    scan_files 100 false [(str "t.c", str "/*\n*/\n")] =
      some (1, ⟨1, 0, []⟩) ∧
    (str "/*\n*/\n").count (chr '\n') = 2 ∧ (1 : Nat) ≠ 2 := by decide

theorem c2_comment_file_scan :
    parse_kernel_messages 100 false (str "t.c") (str "/*\n*/\n") =
      some ⟨1, 0, []⟩ ∧
    (str "/*\n*/\n").count (chr '\n') = 2 := by decide

/-- C2 amended: the summary reports exactly N files scanned, L lines and
F statements found, where N is the number of regular files scanned and L
and F are the exact sums of the per-file line/find contributions of
`parse_kernel_messages`; a file's line contribution counts the newline
characters the tokenizer dispatches on, which excludes newlines inside
comments and string/char literals — e.g. the file `/*\n*/\n` contributes
1 to L although it contains 2 newline characters. -/
theorem c2_counters_amended (fuel : Nat) (esc : Bool)
    (fs : List (List Int × List Int)) (n : Nat) (o : Out)
    (h : scan_files fuel esc fs = some (n, o)) :
    (n = fs.length ∧
     ∃ outs : List Out, per_file_outs fuel esc fs = some outs ∧
       o.lines = (outs.map Out.lines).sum ∧
       o.finds = (outs.map Out.finds).sum) ∧
    (parse_kernel_messages 100 false (str "t.c") (str "/*\n*/\n") =
       some ⟨1, 0, []⟩ ∧
     (str "/*\n*/\n").count (chr '\n') = 2) := by
  refine ⟨?_, c2_comment_file_scan⟩
  induction fs generalizing n o with
  | nil =>
    simp only [scan_files, Option.some.injEq, Prod.mk.injEq] at h
    obtain ⟨rfl, rfl⟩ := h
    exact ⟨rfl, [], rfl, rfl, rfl⟩
  | cons pc rest ih =>
    obtain ⟨pa, c⟩ := pc
    rw [scan_files] at h
    cases hk : parse_file fuel esc pa c with
    | none => rw [hk] at h; exact absurd h (by simp)
    | some q1 =>
      obtain ⟨n1, o1⟩ := q1
      rw [hk] at h
      cases hr : scan_files fuel esc rest with
      | none => rw [hr] at h; exact absurd h (by simp)
      | some q2 =>
        obtain ⟨n2, o2⟩ := q2
        rw [hr] at h
        simp only [Option.some.injEq, Prod.mk.injEq] at h
        obtain ⟨rfl, rfl⟩ := h
        unfold parse_file at hk
        cases hkk : parse_kernel_messages fuel esc pa c with
        | none => rw [hkk] at hk; exact absurd hk (by simp)
        | some o1' =>
          rw [hkk] at hk
          simp only [Option.some.injEq, Prod.mk.injEq] at hk
          obtain ⟨rfl, rfl⟩ := hk
          obtain ⟨hn, outs, houts, hl, hf⟩ := ih n2 o2 hr
          refine ⟨by rw [List.length_cons, hn]; omega, o1' :: outs, ?_, ?_, ?_⟩
          · rw [per_file_outs, hkk, houts]
          · simp [oapp, hl]
          · simp [oapp, hf]

theorem c2_counters_amended_witness :
    (1 = [(str "a.c", str ";\n")].length ∧
     ∃ outs : List Out, per_file_outs 50 false [(str "a.c", str ";\n")] = some outs ∧
       (⟨1, 0, []⟩ : Out).lines = (outs.map Out.lines).sum ∧
       (⟨1, 0, []⟩ : Out).finds = (outs.map Out.finds).sum) ∧
    (parse_kernel_messages 100 false (str "t.c") (str "/*\n*/\n") =
       some ⟨1, 0, []⟩ ∧
     (str "/*\n*/\n").count (chr '\n') = 2) :=
  c2_counters_amended 50 false [(str "a.c", str ";\n")] 1 ⟨1, 0, []⟩ (by decide)
